import Mathlib

/-!
Verification of the Remix Express adapter (`packages/remix-express/server.ts`).

The adapter is a bidirectional shim between Express's native request/response
objects and the Fetch-API-like `Request`/`Response` values used by the Remix
framework handler.  We shallowly embed the adapter's data model and its four
functions — `createRemixHeaders`, `createRemixRequest`, `sendRemixResponse`
and the middleware callback returned by `createRequestHandler` — as
executable Lean definitions, and prove the specification's claims about them.

Modelling conventions:
* Header mappings and header containers are association lists
  `List (String × String)`; JavaScript object / native header assignment
  (overwrite an existing key in place, otherwise append) is `assocSet`.
* Byte payloads and streams are `List Nat` (the byte sequences they carry).
* A JavaScript value that may be thrown is an arbitrary type parameter `E`;
  code that can throw is embedded as `Except E _`.
* The external WHATWG URL constructor throws on malformed input; which
  (path, origin) pairs are malformed is internal to that external
  primitive, so the embedding carries its throwing behaviour as a
  parameter `urlError` and quantifies over it.
-/

namespace RemixExpress

/-- A value of a server-native (Express/Node) header mapping entry:
a single string, an array of strings, the value `undefined`, or any other
non-string non-array value (possible in untyped JavaScript callers). -/
inductive HeaderValue where
  | str (s : String)
  | arr (xs : List String)
  | undef
  | other
  deriving DecidableEq, Repr

/-- JavaScript object assignment `memo[key] = value` on an association list
(also Node's `res.set(key, value)` native header-write semantics): if the key
is present, overwrite its value in place; otherwise append the entry. -/
def assocSet : List (String × String) → String → String → List (String × String)
  | [], k, v => [(k, v)]
  | kv :: rest, k, v =>
    if kv.1 = k then (k, v) :: rest else kv :: assocSet rest k v

/-- Reading a key from an association-list header container (first match). -/
def lookupHeader (m : List (String × String)) (k : String) : Option String :=
  (m.find? (fun kv => kv.1 = k)).map (fun kv => kv.2)

/-- The value of the LAST occurrence of a key in an entry list, if any.
Used to state the overwrite-on-duplicate behaviour of header copying. -/
def lastValue : List (String × String) → String → Option String
  | [], _ => none
  | kv :: rest, k =>
    match lastValue rest k with
    | some v => some v
    | none => if kv.1 = k then some kv.2 else none

/-- The body of the reduce in `createRemixHeaders` (server.ts lines 73-82):
a string value is kept verbatim, an array value is joined with a comma
(JavaScript `Array.prototype.join(",")` is `String.intercalate ","`), and
any other value falls through, leaving `memo` unchanged. -/
def hdrStep (memo : List (String × String)) (kv : String × HeaderValue) :
    List (String × String) :=
  match kv.2 with
  | .str s => assocSet memo kv.1 s
  | .arr xs => assocSet memo kv.1 (String.intercalate "," xs)
  | _ => memo

/-- Embedding of `createRemixHeaders` (server.ts lines 69-85): reduce the
native header mapping into a string-valued object.  The `Headers` container
from the framework package is not under src/; modelled from the spec:
the standardized header container holds exactly the translated
name-to-value entries (spec section 4.1 describes the translation as the
identity on keys and string values), so wrapping in `Headers` is the
identity on the entry list. -/
def createRemixHeaders (requestHeaders : List (String × HeaderValue)) :
    List (String × String) :=
  requestHeaders.foldl hdrStep []

/-- A server-native (Express) incoming request: method, connection metadata
(protocol scheme and hostname), the request target (path plus query, which
Express exposes as `req.url`), the native header mapping, and the bytes of
the native payload stream. -/
structure ExpressRequest where
  method : String
  protocol : String
  hostname : String
  url : String
  headers : List (String × HeaderValue)
  payload : List Nat
  deriving DecidableEq, Repr

/-- The body field of a standardized request: absent, or a byte stream
(`req.pipe(new PassThrough(...))` — the bytes of the native payload). -/
inductive RequestBody where
  | absent
  | stream (bytes : List Nat)
  deriving DecidableEq, Repr

/-- A standardized (Fetch-API-like) request.  The `Request` class itself is
not under src/; modelled from the spec: a standardized request is an
immutable value with method, absolute URL, header container, and optional
body, holding exactly what the constructor was given. -/
structure RemixRequest where
  url : String
  method : String
  headers : List (String × String)
  body : RequestBody
  deriving DecidableEq, Repr

/-- Modelled from the spec: Node's WHATWG `URL` primitive is not part of
this repository's sources; per the spec, the request translator must
construct an absolute URL by resolving the request's path against
`scheme://host`.  For an origin-form request target (a path starting with
`/`) resolved against a bare origin, the resolved absolute URL is the
origin followed by the path.  This is the resolution performed when URL
construction SUCCEEDS; the constructor's failure case (spec sections 4.2
and 7a: malformed URLs propagate as construction failures from the
URL-parsing primitive) is modelled by the `urlError` parameter of
`translateRemixRequest` below. -/
def resolveURL (path origin : String) : String :=
  origin ++ path

/-- Embedding of `createRemixRequest` (server.ts lines 87-101): build the
origin from `req.protocol` and `req.hostname`, resolve `req.url` against it,
translate the headers, and attach the payload stream as the body unless the
method is GET or HEAD (the comparison in the source is case-sensitive
string inequality). -/
def createRemixRequest (req : ExpressRequest) : RemixRequest :=
  let origin := req.protocol ++ "://" ++ req.hostname
  let url := resolveURL req.url origin
  { url := url
    method := req.method
    headers := createRemixHeaders req.headers
    body :=
      if req.method ≠ "GET" ∧ req.method ≠ "HEAD" then
        RequestBody.stream req.payload
      else
        RequestBody.absent }

/-- The request-translation step as it runs inside the try block
(server.ts line 52): `createRemixRequest` builds the origin at line 88 and
calls `new URL(req.url, origin)` at line 89, which THROWS on malformed
input.  Modelled from the spec (sections 4.2 and 7a: malformed URLs
propagate as construction failures from the URL-parsing primitive): which
(path, origin) pairs are malformed, and what error value the constructor
throws for them, is internal to the external primitive, so the model takes
that behaviour as the parameter `urlError`.  When construction succeeds
(`urlError` yields `none`), translation produces `createRemixRequest req`;
when it fails, the thrown value propagates as the translation failure. -/
def translateRemixRequest {E : Type} (urlError : String → String → Option E)
    (req : ExpressRequest) : Except E RemixRequest :=
  let origin := req.protocol ++ "://" ++ req.hostname
  match urlError req.url origin with
  | some e => .error e
  | none => .ok (createRemixRequest req)

/-- The body of a standardized response: a fully-buffered byte block
(a Node `Buffer`), a readable byte stream, or absent (`null`) — the last
being the case `sendRemixResponse` is not prepared for. -/
inductive ResponseBody where
  | buffer (bytes : List Nat)
  | stream (bytes : List Nat)
  | null
  deriving DecidableEq, Repr

/-- A standardized (Fetch-API-like) response: numeric status, header
container iterated as ordered (key, value) entries (duplicate names
permitted), and a body. -/
structure RemixResponse where
  status : Nat
  headers : List (String × String)
  body : ResponseBody
  deriving DecidableEq, Repr

/-- The observable state of a server-native (Express) outgoing response:
the status code, the native header map, the bytes written so far, and
whether the response has been ended. -/
structure ExpressResponse where
  status : Nat
  headers : List (String × String)
  body : List Nat
  ended : Bool
  deriving DecidableEq, Repr

/-- The header-copy loop of `sendRemixResponse` (server.ts lines 106-108):
`res.set(key, value)` for each entry, in iteration order, so a later
duplicate key overwrites the value an earlier entry set. -/
def copyHeaders (native : List (String × String))
    (entries : List (String × String)) : List (String × String) :=
  entries.foldl (fun m kv => assocSet m kv.1 kv.2) native

/-- Embedding of `sendRemixResponse` (server.ts lines 103-115): set the
native status, copy every header entry, then write the body.  A buffered
body is written and the response ended (`res.end(buffer)`); a streamed body
is piped to completion, which also writes its bytes and ends the response.
A `null` body reaches `response.body.pipe(res)` and throws a TypeError
(reading a property of null); the `Except.error` value is the native
response state at the moment of the throw — status and headers already
applied, nothing written, not ended. -/
def sendRemixResponse (res : ExpressResponse) (response : RemixResponse) :
    Except ExpressResponse ExpressResponse :=
  let withStatus : ExpressResponse := { res with status := response.status }
  let withHeaders : ExpressResponse :=
    { withStatus with
      headers := copyHeaders withStatus.headers response.headers }
  match response.body with
  | .buffer bytes =>
      .ok { withHeaders with body := withHeaders.body ++ bytes, ended := true }
  | .stream bytes =>
      .ok { withHeaders with body := withHeaders.body ++ bytes, ended := true }
  | .null => .error withHeaders

/-- The `getLoadContext` option as a JavaScript value: not supplied
(`undefined`), supplied as a function (which, being user code, may throw),
or supplied as some non-function value (possible in untyped callers; the
`typeof getLoadContext === "function"` guard at line 54 is what
distinguishes it). -/
inductive LoadContextOption (E Ctx : Type) where
  | missing
  | fn (f : ExpressRequest → ExpressResponse → Except E Ctx)
  | notFunction

/-- Embedding of the conditional at server.ts lines 53-56: the load context
is `getLoadContext(req, res)` when the option is a function, and
`undefined` (here `none`) otherwise; only a supplied function can throw. -/
def loadContextOf {E Ctx : Type} :
    LoadContextOption E Ctx → ExpressRequest → ExpressResponse →
      Except E (Option Ctx)
  | .fn f, req, res => (f req res).map some
  | _, _, _ => .ok none

/-- A failure observed by the catch block: either a value `e` thrown or
rejected by user code (the load-context function or the framework handler),
forwarded unmodified, or the TypeError raised by piping a `null` response
body inside `sendRemixResponse`. -/
inductive MWError (E : Type) where
  | user (e : E)
  | nullBodyPipe

/-- The outcome of one invocation of the middleware callback: either the
native response was emitted via `sendRemixResponse`, or the error
continuation `next` was invoked with a failure.  The callback itself is a
total function into this type: it resolves without throwing. -/
inductive MiddlewareResult (E : Type) where
  | response (res : ExpressResponse)
  | next (e : MWError E)

/-- Embedding of the middleware callback returned by `createRequestHandler`
(server.ts lines 46-66).  `urlError` is the throwing behaviour of the
external URL constructor invoked during request translation (see
`translateRemixRequest`); `handleRequest` is the framework handler bound
once at construction (`createRemixRequestHandler` from the framework
package, opaque to the adapter); it may suspend and may reject.  The try
block translates the request (which may throw at the URL constructor),
computes the load context, awaits the handler, and emits the response; the
catch block forwards any failure to `next`. -/
def createRequestHandler {E Ctx : Type}
    (urlError : String → String → Option E)
    (handleRequest : RemixRequest → Option Ctx → Except E RemixResponse)
    (getLoadContext : LoadContextOption E Ctx)
    (req : ExpressRequest) (res : ExpressResponse) : MiddlewareResult E :=
  match translateRemixRequest urlError req with
  | .error e => .next (.user e)
  | .ok request =>
    match loadContextOf getLoadContext req res with
    | .error e => .next (.user e)
    | .ok loadContext =>
      match handleRequest request loadContext with
      | .error e => .next (.user e)
      | .ok response =>
        match sendRemixResponse res response with
        | .ok final => .response final
        | .error _ => .next .nullBodyPipe

/-! Helper lemmas about the association-list operations. -/

theorem lookupHeader_nil (k : String) : lookupHeader [] k = none := rfl

theorem lookupHeader_cons (kv : String × String) (l : List (String × String))
    (k : String) :
    lookupHeader (kv :: l) k = if kv.1 = k then some kv.2 else lookupHeader l k := by
  by_cases h : kv.1 = k <;> simp [lookupHeader, List.find?_cons, h]

theorem lookupHeader_assocSet (m : List (String × String)) (k v k' : String) :
    lookupHeader (assocSet m k v) k' =
      if k = k' then some v else lookupHeader m k' := by
  induction m with
  | nil => by_cases h : k = k' <;> simp [assocSet, lookupHeader_cons, h]
  | cons kv rest ih =>
    by_cases h : kv.1 = k
    · by_cases h' : k = k' <;>
        simp [assocSet, h, lookupHeader_cons, h', h ▸ h']
    · rw [show assocSet (kv :: rest) k v = kv :: assocSet rest k v by
        simp [assocSet, h]]
      rw [lookupHeader_cons, lookupHeader_cons, ih]
      by_cases h' : k = k'
      · have : ¬kv.1 = k' := fun hc => h (hc.trans h'.symm)
        simp [h', this]
      · simp [h']

theorem assocSet_of_not_mem (m : List (String × String)) (k v : String)
    (hk : k ∉ m.map Prod.fst) : assocSet m k v = m ++ [(k, v)] := by
  induction m with
  | nil => rfl
  | cons kv rest ih =>
    simp only [List.map_cons, List.mem_cons] at hk
    push_neg at hk
    have hne : ¬kv.1 = k := fun hc => hk.1 hc.symm
    rw [show assocSet (kv :: rest) k v = kv :: assocSet rest k v by
      simp [assocSet, hne]]
    rw [ih hk.2, List.cons_append]

theorem lookupHeader_copyHeaders (native entryList : List (String × String))
    (k : String) :
    lookupHeader (copyHeaders native entryList) k =
      match lastValue entryList k with
      | some v => some v
      | none => lookupHeader native k := by
  induction entryList generalizing native with
  | nil => rfl
  | cons kv rest ih =>
    rw [show copyHeaders native (kv :: rest) =
        copyHeaders (assocSet native kv.1 kv.2) rest from rfl, ih]
    cases hlv : lastValue rest k with
    | some v => simp [lastValue, hlv]
    | none =>
      simp only [lastValue, hlv]
      rw [lookupHeader_assocSet]
      by_cases h : kv.1 = k <;> simp [h]

/-- The per-entry effect of the header-translation reduce, used to state
what `createRemixHeaders` keeps and drops. -/
def translateEntry (kv : String × HeaderValue) : Option (String × String) :=
  match kv.2 with
  | .str s => some (kv.1, s)
  | .arr xs => some (kv.1, String.intercalate "," xs)
  | _ => none

theorem translateEntry_key (kv : String × HeaderValue) (p : String × String)
    (h : translateEntry kv = some p) : p.1 = kv.1 := by
  cases kv with
  | mk k v =>
    cases v <;> simp [translateEntry] at h <;> subst h <;> rfl

theorem foldl_hdrStep_eq (h : List (String × HeaderValue)) :
    ∀ memo : List (String × String),
      (h.map Prod.fst).Nodup →
      (∀ k, k ∈ h.map Prod.fst → k ∉ memo.map Prod.fst) →
      h.foldl hdrStep memo = memo ++ h.filterMap translateEntry := by
  induction h with
  | nil => intro memo _ _; simp
  | cons kv rest ih =>
    intro memo hnd hdisj
    simp only [List.map_cons, List.nodup_cons] at hnd
    have hk : kv.1 ∉ memo.map Prod.fst := hdisj kv.1 (by simp)
    rw [List.foldl_cons]
    cases hv : kv.2 with
    | str s =>
      rw [show hdrStep memo kv = assocSet memo kv.1 s by simp [hdrStep, hv]]
      rw [assocSet_of_not_mem memo kv.1 s hk]
      rw [ih (memo ++ [(kv.1, s)]) hnd.2 ?_]
      · simp [List.filterMap_cons, translateEntry, hv]
      · intro k hkr
        simp only [List.map_append, List.mem_append, List.map_cons,
          List.map_nil, List.mem_singleton]
        push_neg
        exact ⟨hdisj k (by simp [hkr]), fun hc => hnd.1 (hc ▸ hkr)⟩
    | arr xs =>
      rw [show hdrStep memo kv = assocSet memo kv.1 (String.intercalate "," xs) by
        simp [hdrStep, hv]]
      rw [assocSet_of_not_mem memo kv.1 _ hk]
      rw [ih (memo ++ [(kv.1, String.intercalate "," xs)]) hnd.2 ?_]
      · simp [List.filterMap_cons, translateEntry, hv]
      · intro k hkr
        simp only [List.map_append, List.mem_append, List.map_cons,
          List.map_nil, List.mem_singleton]
        push_neg
        exact ⟨hdisj k (by simp [hkr]), fun hc => hnd.1 (hc ▸ hkr)⟩
    | undef =>
      rw [show hdrStep memo kv = memo by simp [hdrStep, hv]]
      rw [ih memo hnd.2 (fun k hkr => hdisj k (by simp [hkr]))]
      simp [List.filterMap_cons, translateEntry, hv]
    | other =>
      rw [show hdrStep memo kv = memo by simp [hdrStep, hv]]
      rw [ih memo hnd.2 (fun k hkr => hdisj k (by simp [hkr]))]
      simp [List.filterMap_cons, translateEntry, hv]

theorem createRemixHeaders_eq_filterMap (h : List (String × HeaderValue))
    (hnd : (h.map Prod.fst).Nodup) :
    createRemixHeaders h = h.filterMap translateEntry := by
  rw [createRemixHeaders, foldl_hdrStep_eq h [] hnd (by simp)]
  simp

theorem lookupHeader_filterMap_of_not_mem (h : List (String × HeaderValue))
    (k : String) (hk : k ∉ h.map Prod.fst) :
    lookupHeader (h.filterMap translateEntry) k = none := by
  induction h with
  | nil => rfl
  | cons kv rest ih =>
    simp only [List.map_cons, List.mem_cons] at hk
    push_neg at hk
    rw [List.filterMap_cons]
    cases ht : translateEntry kv with
    | none => exact ih hk.2
    | some p =>
      rw [lookupHeader_cons]
      have : ¬p.1 = k := by
        rw [translateEntry_key kv p ht]
        exact fun hc => hk.1 hc.symm
      simp [this, ih hk.2]

theorem lookupHeader_filterMap (h : List (String × HeaderValue)) (k : String)
    (v : HeaderValue) (hnd : (h.map Prod.fst).Nodup) (hmem : (k, v) ∈ h) :
    lookupHeader (h.filterMap translateEntry) k =
      Option.map Prod.snd (translateEntry (k, v)) := by
  induction h with
  | nil => cases hmem
  | cons kv rest ih =>
    simp only [List.map_cons, List.nodup_cons] at hnd
    rcases List.mem_cons.mp hmem with heq | hmem'
    · subst heq
      rw [List.filterMap_cons]
      cases ht : translateEntry (k, v) with
      | none =>
        have hk : k ∉ rest.map Prod.fst := hnd.1
        simp [lookupHeader_filterMap_of_not_mem rest k hk]
      | some p =>
        rw [lookupHeader_cons]
        have hp : p.1 = k := translateEntry_key _ _ ht
        cases v <;> simp [translateEntry] at ht <;> simp [← ht]
    · have hne : ¬kv.1 = k := by
        intro hc
        exact hnd.1 (hc ▸ List.mem_map_of_mem Prod.fst hmem')
      rw [List.filterMap_cons]
      cases ht : translateEntry kv with
      | none => exact ih hnd.2 hmem'
      | some p =>
        rw [lookupHeader_cons]
        have : ¬p.1 = k := (translateEntry_key _ _ ht) ▸ hne
        simp [this, ih hnd.2 hmem']

/-! Claim theorems. -/

/-- C1: any failure thrown or rejected during request translation (a throw
of the URL constructor, whatever its throwing behaviour `urlError`),
load-context computation, framework-handler invocation, or response
emission is forwarded to the error continuation `next` with the failure
value unmodified; the middleware callback itself is a total function into
`MiddlewareResult` and so resolves without throwing. -/
theorem middleware_error_forwarding {E Ctx : Type}
    (urlError : String → String → Option E)
    (handleRequest : RemixRequest → Option Ctx → Except E RemixResponse)
    (glc : LoadContextOption E Ctx) (req : ExpressRequest)
    (res : ExpressResponse) :
    (∀ e, urlError req.url (req.protocol ++ "://" ++ req.hostname) = some e →
      createRequestHandler urlError handleRequest glc req res =
        MiddlewareResult.next (MWError.user e)) ∧
    (∀ e, urlError req.url (req.protocol ++ "://" ++ req.hostname) = none →
      loadContextOf glc req res = Except.error e →
      createRequestHandler urlError handleRequest glc req res =
        MiddlewareResult.next (MWError.user e)) ∧
    (∀ ctx e, urlError req.url (req.protocol ++ "://" ++ req.hostname) = none →
      loadContextOf glc req res = Except.ok ctx →
      handleRequest (createRemixRequest req) ctx = Except.error e →
      createRequestHandler urlError handleRequest glc req res =
        MiddlewareResult.next (MWError.user e)) ∧
    (∀ ctx response,
      urlError req.url (req.protocol ++ "://" ++ req.hostname) = none →
      loadContextOf glc req res = Except.ok ctx →
      handleRequest (createRemixRequest req) ctx = Except.ok response →
      response.body = ResponseBody.null →
      createRequestHandler urlError handleRequest glc req res =
        MiddlewareResult.next MWError.nullBodyPipe) := by
  refine ⟨fun e h0 => ?_, fun e h0 h1 => ?_, fun ctx e h0 h1 h2 => ?_,
    fun ctx response h0 h1 h2 h3 => ?_⟩
  · simp [createRequestHandler, translateRemixRequest, h0]
  · simp [createRequestHandler, translateRemixRequest, h0, h1]
  · simp [createRequestHandler, translateRemixRequest, h0, h1, h2]
  · simp [createRequestHandler, translateRemixRequest, h0, h1, h2,
      sendRemixResponse, h3]

/-- Witness for C1: a URL constructor that throws the string "bad url" on
the request's malformed origin makes the middleware invoke `next` with
exactly that value before the handler runs, and, with a non-throwing
constructor, a framework handler that rejects with the string "boom" makes
the middleware invoke `next` with exactly that value. -/
theorem middleware_error_forwarding_witness :
    @createRequestHandler String Unit (fun _ _ => some "bad url")
      (fun _ _ => Except.ok ⟨200, [], ResponseBody.buffer []⟩)
      LoadContextOption.missing ⟨"GET", "http", "a b", "/", [], []⟩
      ⟨200, [], [], false⟩ =
      MiddlewareResult.next (MWError.user "bad url") ∧
    @createRequestHandler String Unit (fun _ _ => none)
      (fun _ _ => Except.error "boom") LoadContextOption.missing
      ⟨"GET", "http", "h", "/", [], []⟩ ⟨200, [], [], false⟩ =
      MiddlewareResult.next (MWError.user "boom") :=
  ⟨(middleware_error_forwarding (fun _ _ => some "bad url")
      (fun _ _ => Except.ok ⟨200, [], ResponseBody.buffer []⟩)
      LoadContextOption.missing ⟨"GET", "http", "a b", "/", [], []⟩
      ⟨200, [], [], false⟩).1 "bad url" rfl,
    (middleware_error_forwarding (fun _ _ => none)
      (fun _ _ => Except.error "boom") LoadContextOption.missing
      ⟨"GET", "http", "h", "/", [], []⟩
      ⟨200, [], [], false⟩).2.2.1 none "boom" rfl rfl rfl⟩

/-- C2: the standardized request has no body when the method is GET or
HEAD, regardless of the native payload, and has a body streaming the
native payload bytes for every other method. -/
theorem request_body_by_method (req : ExpressRequest) :
    ((req.method = "GET" ∨ req.method = "HEAD") →
      (createRemixRequest req).body = RequestBody.absent) ∧
    (req.method ≠ "GET" → req.method ≠ "HEAD" →
      (createRemixRequest req).body = RequestBody.stream req.payload) := by
  constructor
  · rintro (h | h) <;> simp [createRemixRequest, h]
  · intro h1 h2
    simp [createRemixRequest, h1, h2]

/-- Witness for C2: a GET with a nonempty native payload gets no body; a
POST with the same payload gets a stream of exactly those bytes. -/
theorem request_body_by_method_witness :
    (createRemixRequest ⟨"GET", "http", "h", "/", [], [1, 2]⟩).body =
      RequestBody.absent ∧
    (createRemixRequest ⟨"POST", "http", "h", "/", [], [1, 2]⟩).body =
      RequestBody.stream [1, 2] :=
  ⟨(request_body_by_method ⟨"GET", "http", "h", "/", [], [1, 2]⟩).1
      (Or.inl rfl),
    (request_body_by_method ⟨"POST", "http", "h", "/", [], [1, 2]⟩).2
      (by decide) (by decide)⟩

/-- C3: for an origin-form request target (Express's `req.url` always
starts with a slash), the standardized request's URL is the absolute URL
obtained by resolving the path against `protocol://hostname`. -/
theorem request_url_resolution (req : ExpressRequest)
    (_h : req.url.data.head? = some '/') :
    (createRemixRequest req).url =
      req.protocol ++ "://" ++ req.hostname ++ req.url := rfl

/-- Witness for C3: a GET for `/foo?x=1` with host `example.com` over
https translates to the URL `https://example.com/foo?x=1`. -/
theorem request_url_resolution_witness :
    (createRemixRequest
      ⟨"GET", "https", "example.com", "/foo?x=1", [], []⟩).url =
      "https://example.com/foo?x=1" :=
  request_url_resolution
    ⟨"GET", "https", "example.com", "/foo?x=1", [], []⟩ (by decide)

/-- C4: for a buffered body, `sendRemixResponse` returns a native response
carrying the standardized status, exactly the buffered bytes appended to
what was already written (nothing, for a fresh response), the ended flag,
and headers where each key resolves to the LAST value the standardized
response holds for it (later duplicates overwrite), falling back to the
native response's prior header value for keys the standardized response
does not mention. -/
theorem send_buffered_response (res : ExpressResponse)
    (response : RemixResponse) (bytes : List Nat)
    (hb : response.body = ResponseBody.buffer bytes) :
    ∃ final, sendRemixResponse res response = Except.ok final ∧
      final.status = response.status ∧
      final.body = res.body ++ bytes ∧
      final.ended = true ∧
      ∀ k, lookupHeader final.headers k =
        match lastValue response.headers k with
        | some v => some v
        | none => lookupHeader res.headers k := by
  refine ⟨{ status := response.status,
            headers := copyHeaders res.headers response.headers,
            body := res.body ++ bytes, ended := true }, ?_, rfl, rfl, rfl, ?_⟩
  · simp [sendRemixResponse, hb]
  · intro k
    exact lookupHeader_copyHeaders res.headers response.headers k

/-- Witness for C4: the standardized response with status 404, no headers
and an empty buffer yields a native reply with status 404, a zero-length
body, and the response ended. -/
theorem send_buffered_response_witness :
    ∃ final, sendRemixResponse ⟨200, [], [], false⟩
        ⟨404, [], ResponseBody.buffer []⟩ = Except.ok final ∧
      final.status = 404 ∧ final.body = [] ∧ final.ended = true := by
  obtain ⟨final, h1, h2, h3, h4, _⟩ :=
    send_buffered_response ⟨200, [], [], false⟩
      ⟨404, [], ResponseBody.buffer []⟩ [] rfl
  exact ⟨final, h1, h2, h3, h4⟩

/-- C5: an entry whose value is an ordered sequence of strings translates
to that key mapped to the comma-join of the strings, in order. -/
theorem headers_array_join (h : List (String × HeaderValue)) (k : String)
    (xs : List String) (hnd : (h.map Prod.fst).Nodup)
    (hmem : (k, HeaderValue.arr xs) ∈ h) :
    lookupHeader (createRemixHeaders h) k =
      some (String.intercalate "," xs) := by
  rw [createRemixHeaders_eq_filterMap h hnd,
    lookupHeader_filterMap h k (HeaderValue.arr xs) hnd hmem]
  rfl

/-- Witness for C5: the mapping with x-foo bound to the two strings a and
b translates to x-foo bound to the single string a,b. -/
theorem headers_array_join_witness :
    lookupHeader (createRemixHeaders [("x-foo", HeaderValue.arr ["a", "b"])])
      "x-foo" = some "a,b" :=
  headers_array_join [("x-foo", HeaderValue.arr ["a", "b"])] "x-foo"
    ["a", "b"] (by decide) (by decide)

/-- C6: on a mapping in which every value is a single string, header
translation is the identity: the translated container holds exactly the
same keys mapped to the same string values, in the same order. -/
theorem headers_string_identity (h : List (String × String))
    (hnd : (h.map Prod.fst).Nodup) :
    createRemixHeaders (h.map (fun kv => (kv.1, HeaderValue.str kv.2))) = h := by
  rw [createRemixHeaders_eq_filterMap]
  · rw [List.filterMap_map]
    have heq : (translateEntry ∘ fun kv : String × String =>
        (kv.1, HeaderValue.str kv.2)) = some := by
      funext kv
      simp [translateEntry, Function.comp]
    rw [heq, List.filterMap_some]
  · simpa using hnd

/-- Witness for C6: a two-entry all-string mapping is translated to
itself. -/
theorem headers_string_identity_witness :
    createRemixHeaders
      [("host", HeaderValue.str "example.com"),
       ("accept", HeaderValue.str "text/html")] =
      [("host", "example.com"), ("accept", "text/html")] :=
  headers_string_identity
    [("host", "example.com"), ("accept", "text/html")] (by decide)

/-- C7: each invocation of the middleware callback has exactly one
outcome, whatever the URL constructor's throwing behaviour: either a
response was emitted or the error continuation was invoked — never both,
never neither. -/
theorem middleware_single_outcome {E Ctx : Type}
    (urlError : String → String → Option E)
    (handleRequest : RemixRequest → Option Ctx → Except E RemixResponse)
    (glc : LoadContextOption E Ctx) (req : ExpressRequest)
    (res : ExpressResponse) :
    Xor'
      (∃ r, createRequestHandler urlError handleRequest glc req res =
        MiddlewareResult.response r)
      (∃ e, createRequestHandler urlError handleRequest glc req res =
        MiddlewareResult.next e) := by
  cases hres : createRequestHandler urlError handleRequest glc req res with
  | response r =>
    exact Or.inl ⟨⟨r, rfl⟩, by
      rintro ⟨e, he⟩
      exact MiddlewareResult.noConfusion he⟩
  | next e =>
    exact Or.inr ⟨⟨e, rfl⟩, by
      rintro ⟨r, hr⟩
      exact MiddlewareResult.noConfusion hr⟩

/-- C8: header translation is a total function (it always succeeds), and
an entry whose value is undefined or neither a string nor an array of
strings is dropped: its key is absent from the translated container. -/
theorem headers_drop_invalid (h : List (String × HeaderValue)) (k : String)
    (v : HeaderValue) (hnd : (h.map Prod.fst).Nodup) (hmem : (k, v) ∈ h)
    (hv : v = HeaderValue.undef ∨ v = HeaderValue.other) :
    lookupHeader (createRemixHeaders h) k = none := by
  rw [createRemixHeaders_eq_filterMap h hnd,
    lookupHeader_filterMap h k v hnd hmem]
  rcases hv with rfl | rfl <;> rfl

/-- Witness for C8: an entry with an undefined value is dropped while a
string-valued entry in the same mapping is kept, and translation
succeeds. -/
theorem headers_drop_invalid_witness :
    lookupHeader (createRemixHeaders
      [("x-gone", HeaderValue.undef), ("host", HeaderValue.str "h")])
      "x-gone" = none :=
  headers_drop_invalid
    [("x-gone", HeaderValue.undef), ("host", HeaderValue.str "h")]
    "x-gone" HeaderValue.undef (by decide) (by decide) (Or.inl rfl)

/-- C9: on a response whose body is absent (null), emission fails at the
pipe step: `sendRemixResponse` throws after the status and every header
have already been applied to the native response, with nothing written
and the native response not ended. -/
theorem send_null_body_fails (res : ExpressResponse)
    (response : RemixResponse) (hb : response.body = ResponseBody.null) :
    ∃ st, sendRemixResponse res response = Except.error st ∧
      st.status = response.status ∧
      st.body = res.body ∧
      st.ended = res.ended ∧
      ∀ k, lookupHeader st.headers k =
        match lastValue response.headers k with
        | some v => some v
        | none => lookupHeader res.headers k := by
  refine ⟨{ status := response.status,
            headers := copyHeaders res.headers response.headers,
            body := res.body, ended := res.ended }, ?_, rfl, rfl, rfl, ?_⟩
  · simp [sendRemixResponse, hb]
  · intro k
    exact lookupHeader_copyHeaders res.headers response.headers k

/-- Witness for C9: emitting a null-bodied response onto a fresh native
response throws with status and header applied, nothing written, and the
response not ended. -/
theorem send_null_body_fails_witness :
    ∃ st, sendRemixResponse ⟨200, [], [], false⟩
        ⟨500, [("x-a", "1")], ResponseBody.null⟩ = Except.error st ∧
      st.status = 500 ∧ st.body = [] ∧ st.ended = false := by
  obtain ⟨st, h1, h2, h3, h4, _⟩ :=
    send_null_body_fails ⟨200, [], [], false⟩
      ⟨500, [("x-a", "1")], ResponseBody.null⟩ rfl
  exact ⟨st, h1, h2, h3, h4⟩

/-- C10: a supplied `getLoadContext` that is not a function is silently
ignored — the middleware behaves exactly as if the option were omitted,
and the load context is `undefined` (none) with no error raised — while a
supplied function produces the context `getLoadContext(req, res)`. -/
theorem getLoadContext_nonfunction_ignored {E Ctx : Type}
    (urlError : String → String → Option E)
    (handleRequest : RemixRequest → Option Ctx → Except E RemixResponse)
    (req : ExpressRequest) (res : ExpressResponse) :
    createRequestHandler urlError handleRequest
        LoadContextOption.notFunction req res =
      createRequestHandler urlError handleRequest
        LoadContextOption.missing req res ∧
    loadContextOf (LoadContextOption.notFunction : LoadContextOption E Ctx)
      req res = Except.ok none ∧
    ∀ f : ExpressRequest → ExpressResponse → Ctx,
      loadContextOf (LoadContextOption.fn (E := E) fun r s => Except.ok (f r s))
        req res = Except.ok (some (f req res)) :=
  ⟨rfl, rfl, fun _ => rfl⟩

end RemixExpress
